import Mathlib

/-!
Verification of the ubikom-bot message responder (`cmd/ubikom-bot/main.go`).

The development shallowly embeds the parts of the program that the checked
properties talk about:

* Go's `strconv.ParseInt(s, 10, 32)` as used at the intent-derivation site
  (`main`, around the `articleId` assignment), including its exact behaviour
  on syntax errors (value 0) and on range overflow (clamped boundary value);
* the intent derivation itself (nonzero parsed id → article request,
  otherwise digest);
* `filterMalformedHeaders` (line splitting on `\n`, the header/body state
  machine, joining with `\n`);
* the reply-receiver computation (`respReceiver`) at both of its sites;
* the composition of the digest reply and of the article reply
  (`CreateTextEmail` inputs), and the message-dispatch logic of the poll
  loop over abstract outcomes of the external calls (document parsing,
  cache lookup, gRPC receive, email serialization and send).

Byte strings are modelled as `List Char`; all byte comparisons performed by
the Go code are against ASCII characters (`'\n'`, `'\r'`, digits, signs,
`From` prefixes), for which the byte-level and character-level views agree.
Machine integers are modelled as `Nat`/`Int` with explicit `% 2 ^ 64`
where Go's uint64 arithmetic could overflow.
-/

namespace UbikomBot

/-! ## Go `strconv` parsing, specialised to `ParseInt(s, 10, 32)` -/

/-- Error kinds of Go's `strconv` number parsers: `ErrSyntax` and `ErrRange`. -/
inductive NumErr where
  | syn
  | range
deriving DecidableEq

/-- Go `strconv`'s cutoff for base-10 uint64 accumulation:
`maxUint64/10 + 1`. -/
def u64cutoff10 : Nat := (2 ^ 64 - 1) / 10 + 1

/-- The `maxVal` of `ParseUint(s, 10, 32)`: `1<<32 - 1`. -/
def u32maxVal : Nat := 2 ^ 32 - 1

/-- The `cutoff` of `ParseInt(s, 10, 32)`: `1<<31`. -/
def int32cutoff : Nat := 2 ^ 31

/-- The digit test of Go `strconv.ParseUint` for base 10:
`'0' <= c && c <= '9'`, a byte comparison (code points 48..57). -/
def isDig (c : Char) : Bool := decide (48 ≤ c.toNat) && decide (c.toNat ≤ 57)

/-- Digit value `c - '0'`. -/
def digitVal (c : Char) : Nat := c.toNat - 48

/-- The accumulation loop of Go `strconv.ParseUint(s, 10, 32)`:
`n *= 10; n1 := n + d` in uint64 arithmetic, with the range checks
`n >= cutoff`, `n1 < n` and `n1 > maxVal`, and a syntax error on any
non-digit byte. -/
def parseUintLoop : List Char → Nat → Except NumErr Nat
  | [], n => .ok n
  | c :: cs, n =>
    if isDig c then
      if u64cutoff10 ≤ n then .error .range
      else
        let m := n * 10 % 2 ^ 64
        let n1 := (m + digitVal c) % 2 ^ 64
        if n1 < m ∨ u32maxVal < n1 then .error .range
        else parseUintLoop cs n1
    else .error .syn

/-- Go `strconv.ParseUint(s, 10, 32)` (empty input is a syntax error). -/
def goParseUint32 (s : List Char) : Except NumErr Nat :=
  match s with
  | [] => .error .syn
  | c :: cs => parseUintLoop (c :: cs) 0

/-- The value component that Go `ParseUint` reports alongside its error:
the parsed value on success, `maxVal` on range error, `0` on syntax error. -/
def puVal : Except NumErr Nat → Nat
  | .ok n => n
  | .error .range => u32maxVal
  | .error .syn => 0

/-- The error component of Go `ParseUint`'s result. -/
def puErr : Except NumErr Nat → Option NumErr
  | .ok _ => none
  | .error e => some e

/-- Go `strconv.ParseInt(s, 10, 32)`: strips one leading sign, runs
`ParseUint` on the rest, propagates syntax errors as `(0, ErrSyntax)`,
clamps to `cutoff-1` / `-cutoff` with `ErrRange` when the unsigned value
reaches the signed 32-bit cutoff, and otherwise returns the signed value. -/
def goParseInt32 (s : List Char) : Int × Option NumErr :=
  match s with
  | [] => (0, some .syn)
  | c :: rest =>
    let body := if c = '+' ∨ c = '-' then rest else c :: rest
    let un := puVal (goParseUint32 body)
    let uerr := puErr (goParseUint32 body)
    if uerr = some NumErr.syn then (0, some .syn)
    else if c ≠ '-' ∧ int32cutoff ≤ un then ((int32cutoff : Int) - 1, some .range)
    else if c = '-' ∧ int32cutoff < un then (-(int32cutoff : Int), some .range)
    else (if c = '-' then -(un : Int) else (un : Int), uerr)

/-! ## Intent derivation (`main`, subject → digest / article request) -/

/-- The two reply intents the dispatcher distinguishes. -/
inductive Intent where
  | digest
  | articleRequest (id : Int)
deriving DecidableEq

/-- The `articleId` computed by `main`:
`var articleId int64; if subj != "" { articleId, _ = strconv.ParseInt(subj, 10, 32) }`.
The parse error is discarded. -/
def deriveArticleId (subj : String) : Int :=
  if subj ≠ "" then (goParseInt32 subj.data).1 else 0

/-- The dispatch decision of `main`: `if articleId != 0` takes the article
path, otherwise the digest path. -/
def deriveIntent (subj : String) : Intent :=
  if deriveArticleId subj ≠ 0 then .articleRequest (deriveArticleId subj) else .digest

/-! ## Specification-side notion of "parses in full as a base-10 integer" -/

/-- Decimal value accumulation of a digit string (most significant first). -/
def decimalFold (n : Nat) (ds : List Char) : Nat :=
  ds.foldl (fun a c => a * 10 + digitVal c) n

/-- The input with one leading `+`/`-` sign stripped. -/
def signBody (s : List Char) : List Char :=
  match s with
  | [] => []
  | c :: rest => if c = '+' ∨ c = '-' then rest else c :: rest

/-- The maximal leading digit run of the sign-stripped input. -/
def digitRun (s : List Char) : List Char := (signBody s).takeWhile isDig

/-- Specification-side parse: `s` parses in full as a base-10 integer
(optional single sign followed by a nonempty digit string) with the usual
mathematical value, unbounded. Written from the spec's words, to be
compared against the code's `goParseInt32`. -/
def specParsedInt (s : List Char) : Option Int :=
  match s with
  | [] => none
  | c :: rest =>
    let body := signBody (c :: rest)
    if body ≠ [] ∧ body.all isDig then
      some (if c = '-' then -(decimalFold 0 body : Int) else (decimalFold 0 body : Int))
    else none

/-! ## `filterMalformedHeaders` -/

/-- Go `strings.Split(s, "\n")`. -/
def splitLines : List Char → List (List Char)
  | [] => [[]]
  | c :: cs =>
    if c = '\n' then [] :: splitLines cs
    else
      match splitLines cs with
      | [] => [[c]]
      | l :: ls => (c :: l) :: ls

/-- Go `strings.Join(lines, "\n")`. -/
def joinLines : List (List Char) → List Char
  | [] => []
  | [l] => l
  | l :: ls => l ++ '\n' :: joinLines ls

/-- The prefix `>From`. -/
def pfxGtFrom : List Char := ['>', 'F', 'r', 'o', 'm']

/-- The prefix `From`. -/
def pfxFrom : List Char := ['F', 'r', 'o', 'm']

/-- The prefix `From:`. -/
def pfxFromColon : List Char := ['F', 'r', 'o', 'm', ':']

/-- The drop condition of `filterMalformedHeaders` while in the header block:
`strings.HasPrefix(line, ">From") || strings.HasPrefix(line, "From") &&
!strings.HasPrefix(line, "From:")` (Go `&&` binds tighter than `||`). -/
def dropLine (l : List Char) : Bool :=
  pfxGtFrom.isPrefixOf l || (pfxFrom.isPrefixOf l && !(pfxFromColon.isPrefixOf l))

/-- The end-of-headers test: `line == "" || line == "\r"`. -/
def isBlankLine (l : List Char) : Bool := decide (l = []) || decide (l = ['\r'])

/-- The per-line loop of `filterMalformedHeaders`, carrying the `headers`
flag. The flag is cleared on the first blank line *before* the drop test,
so the blank line itself and everything after it is kept. -/
def filterLoop : List (List Char) → Bool → List (List Char)
  | [], _ => []
  | line :: rest, headers0 =>
    let headers := if headers0 && isBlankLine line then false else headers0
    if headers && dropLine line then filterLoop rest headers
    else line :: filterLoop rest headers

/-- The function `filterMalformedHeaders`: split on `\n`, run the header filter, join. -/
def filterMalformedHeaders (body : List Char) : List Char :=
  joinLines (filterLoop (splitLines body) true)

/-! ## Reply routing -/

/-- The receiver computation on the digest path of `main`:
`respReceiver := "gateway"; if msg.Sender != "gateway" { respReceiver = msg.Sender }`. -/
def respReceiverMain (sender : String) : String :=
  let r := "gateway"
  if sender ≠ "gateway" then sender else r

/-- The identical receiver computation inside `sendArticle`. -/
def respReceiverArticle (sender : String) : String :=
  let r := "gateway"
  if sender ≠ "gateway" then sender else r

/-! ## Email composition -/

/-- Fixed digest subject (`headlinesSubject`). -/
def headlinesSubject : String := "Последние новости о войне"

/-- Fixed digest header block (the `header` constant of the program). -/
def header : String := "Новости Си-Эн-Эн\n\nКаждая статья имеет номер. Пошлите сообщение с этим номером в теме чтобы получить статью полностью. \n\nЕсли вы пользуетесь зашифрованной почтой Ubikom, то ваше взаимодействие с war-info@ubikom.cc не регистрируется и\nне отслеживается. Метаинформация о ваших сообщениях всегда зашифрована. Обслуживающие серверы находятся\nза пределами РФ. Регестрируйтесь здесь: https://ubikom.cc/ru/index.html.\n\n"

/-- Fixed digest footer block (the `footer` constant of the program). -/
def footer : String := "\n"

/-- Modelled from the spec: a headline cache entry as returned by the
external cache's `GetHeadlines` — an id/title pair (the `newscache`
package is not part of the analysed source; the spec gives
`GetHeadlines() → ordered list of \x7bid, title\x7d`). -/
structure Headline where
  ID : Int
  Title : String
deriving DecidableEq

/-- Modelled from the spec: the external cache's `GetArticle` result,
`\x7bheadline, text\x7d`. -/
structure Article where
  headline : String
  text : String
deriving DecidableEq

/-- Modelled from the spec: the external headline cache, presenting its
`GetHeadlines` / `GetArticle` contract (not-found is `none`). -/
structure Cache where
  headlines : List Headline
  getArticle : Int → Option Article

/-- The `Email` value handed to `CreateTextEmail` (From name/address, To,
Subject, Body; `Date` and the empty `Cc` are dropped from the model). -/
structure Email where
  fromName : String
  fromAddr : String
  toAddrs : List String
  subject : String
  body : String
deriving DecidableEq

/-- The digest body built in `main`: a buffer receiving `header`, then
`fmt.Sprintf("[%d] %s\n\n", h.ID, h.Title)` per headline, then `footer`. -/
def digestBody (headlines : List Headline) : String :=
  let buf := ""
  let buf := buf ++ header
  let buf := headlines.foldl
    (fun b h => b ++ "[" ++ toString h.ID ++ "] " ++ h.Title ++ "\n\n") buf
  buf ++ footer

/-- The digest reply composed in `main`: from
`fmt.Sprintf("%s@ubikom.cc", key.UbikomName)` (no display name), to the
inbound From address, fixed subject, digest body. -/
def digestReplyEmail (keyName toAddr : String) (headlines : List Headline) : Email :=
  { fromName := ""
    fromAddr := keyName ++ "@ubikom.cc"
    toAddrs := [toAddr]
    subject := headlinesSubject
    body := digestBody headlines }

/-- The article reply composed in `sendArticle`: from the fixed identity
`"Ubikom War Info" <war-info@ubikom.cc>`, subject the article headline,
body the article text. -/
def articleReplyEmail (text headline toAddr : String) : Email :=
  { fromName := "Ubikom War Info"
    fromAddr := "war-info@ubikom.cc"
    toAddrs := [toAddr]
    subject := headline
    body := text }

/-! ## The poll-loop dispatch over abstract external-call outcomes -/

/-- A received message as the poller sees it (`res.GetMessage()`):
sender name and (already decrypted, for the parsing stage) content. -/
structure InMsg where
  sender : String
  content : List Char
deriving DecidableEq

/-- Outcome of `client.Receive`: a message, a gRPC status error with a
code, or an error that is not a gRPC status (`status.FromError` not ok). -/
inductive ReceiveOutcome where
  | ok (m : InMsg)
  | errNonStatus
  | errStatus (code : Nat)
deriving DecidableEq

/-- What the poller does with one `Receive` outcome. -/
inductive ReceiveStep where
  | processMsg (m : InMsg)
  | breakDrain
  | fatalExit
deriving DecidableEq

/-- gRPC `codes.NotFound`. -/
def codeNotFound : Nat := 5

/-- The error handling at the `Receive` call of `main`: non-status errors
are fatal; status `NotFound` breaks the per-identity drain loop; any other
status is fatal; success hands the message on. -/
def handleReceive : ReceiveOutcome → ReceiveStep
  | .ok m => .processMsg m
  | .errNonStatus => .fatalExit
  | .errStatus c => if c = codeNotFound then .breakDrain else .fatalExit

/-- The parsed document as the pipeline sees it: the outcome of
`h.AddressList("From")` and of `h.Subject()` (both may fail, being
external-parser calls). -/
structure Doc where
  fromAddrsRes : Except Unit (List String)
  subjRes : Except Unit String

/-- What one pass of the message-processing stage (after decryption)
does: skip the message, log a cache miss (no reply), or compose a reply
on the article or digest path. -/
inductive MsgStep where
  | skip
  | articleMiss (id : Int)
  | articleReply (e : Email) (signer : String) (receiver : String)
  | digestReply (e : Email) (signer : String) (receiver : String)
deriving DecidableEq

/-- The message-processing stage of `main` from `message.Read` onward,
over the abstract parse outcome: a read failure, a From-extraction
failure, a From list without exactly one address, or a subject failure
each `continue` the loop; otherwise the subject decides between the
article path (cache lookup; miss logs and continues, hit sends via
`sendArticle`) and the digest path. -/
def handleMessage (readRes : Except Unit Doc) (keyName sender : String)
    (cache : Cache) : MsgStep :=
  match readRes with
  | .error _ => .skip
  | .ok d =>
    match d.fromAddrsRes with
    | .error _ => .skip
    | .ok al =>
      match al with
      | [toAddr] =>
        match d.subjRes with
        | .error _ => .skip
        | .ok subj =>
          let articleId := deriveArticleId subj
          if articleId ≠ 0 then
            match cache.getArticle articleId with
            | none => .articleMiss articleId
            | some a =>
              .articleReply (articleReplyEmail a.text a.headline toAddr) keyName
                (respReceiverArticle sender)
          else
            .digestReply (digestReplyEmail keyName toAddr cache.headlines) keyName
              (respReceiverMain sender)
      | _ => .skip

/-! ## `sendArticle`'s error contract and the digest-path send tail -/

/-- Trace of one `sendArticle` run over abstract outcomes of its two
external calls (`CreateTextEmail` serialization and `protoutil.SendEmail`):
whether the send was attempted, which send error was logged, and the
function's return value. -/
structure SendArticleTrace where
  sendAttempted : Bool
  loggedSendErr : Option String
  ret : Option String
deriving DecidableEq

/-- Control flow of `sendArticle`'s control flow: a `CreateTextEmail` error is returned
immediately (no send); otherwise `SendEmail` runs, its error is only
logged, and the function returns `nil`. -/
def sendArticleModel (createErr : Option String) (sendErr : Option String) :
    SendArticleTrace :=
  match createErr with
  | some e => { sendAttempted := false, loggedSendErr := none, ret := some e }
  | none => { sendAttempted := true, loggedSendErr := sendErr, ret := none }

/-- Continuation decision of the poll loop after the digest-path send. -/
inductive LoopCont where
  | continueLoop (logged : List String)
  | fatalExit
deriving DecidableEq

/-- The tail of the digest path in `main` (after composing the reply):
a `CreateTextEmail` error and a `SendEmail` error are each only logged;
the loop always continues. -/
def digestSendTail (createErr : Option String) (sendErr : Option String) :
    LoopCont :=
  .continueLoop (createErr.toList ++ sendErr.toList)

/-! ## Characterizing the parser -/

theorem decimalFold_nil (n : Nat) : decimalFold n [] = n := rfl

theorem decimalFold_cons (n : Nat) (c : Char) (cs : List Char) :
    decimalFold n (c :: cs) = decimalFold (n * 10 + digitVal c) cs := rfl

theorem digitVal_le_nine {c : Char} (h : isDig c = true) : digitVal c ≤ 9 := by
  simp only [isDig, Bool.and_eq_true, decide_eq_true_eq] at h
  simp only [digitVal]
  omega

theorem decimalFold_le (ds : List Char) : ∀ n : Nat, n ≤ decimalFold n ds := by
  induction ds with
  | nil => intro n; exact Nat.le_refl n
  | cons c cs ih =>
    intro n
    rw [decimalFold_cons]
    have h := ih (n * 10 + digitVal c)
    omega

theorem parseUintLoop_eq (cs : List Char) : ∀ n : Nat, n ≤ u32maxVal →
    parseUintLoop cs n =
      if u32maxVal < decimalFold n (cs.takeWhile isDig) then .error .range
      else if cs.dropWhile isDig = [] then .ok (decimalFold n cs)
      else .error .syn := by
  have hmax : u32maxVal = 4294967295 := by norm_num [u32maxVal]
  have h64 : (2 : Nat) ^ 64 = 18446744073709551616 := by norm_num
  have hc10 : u64cutoff10 = 1844674407370955162 := by norm_num [u64cutoff10]
  induction cs with
  | nil =>
    intro n hn
    simp only [parseUintLoop, List.takeWhile_nil, List.dropWhile_nil, decimalFold_nil]
    rw [if_neg (by omega : ¬ u32maxVal < n)]
    simp
  | cons c cs ih =>
    intro n hn
    rw [hmax] at hn
    by_cases hc : isDig c = true
    · have hd : digitVal c ≤ 9 := digitVal_le_nine hc
      have hcut : ¬ u64cutoff10 ≤ n := by omega
      have hm : n * 10 % 2 ^ 64 = n * 10 := Nat.mod_eq_of_lt (by omega)
      simp only [parseUintLoop, if_pos hc, if_neg hcut, hm]
      have hn1 : (n * 10 + digitVal c) % 2 ^ 64 = n * 10 + digitVal c :=
        Nat.mod_eq_of_lt (by omega)
      rw [hn1]
      rw [List.takeWhile_cons_of_pos hc, List.dropWhile_cons_of_pos hc,
        decimalFold_cons, decimalFold_cons]
      by_cases hov : u32maxVal < n * 10 + digitVal c
      · rw [if_pos (Or.inr hov)]
        have hfold : u32maxVal < decimalFold (n * 10 + digitVal c) (cs.takeWhile isDig) :=
          lt_of_lt_of_le hov (decimalFold_le _ _)
        rw [if_pos hfold]
      · rw [if_neg (by omega : ¬ (n * 10 + digitVal c < n * 10 ∨ u32maxVal < n * 10 + digitVal c))]
        exact ih (n * 10 + digitVal c) (by omega)
    · simp only [parseUintLoop, if_neg hc]
      rw [List.takeWhile_cons_of_neg hc, List.dropWhile_cons_of_neg hc, decimalFold_nil]
      rw [if_neg (by omega : ¬ u32maxVal < n), if_neg (List.cons_ne_nil c cs)]

theorem goParseUint32_eq (body : List Char) :
    goParseUint32 body =
      if body = [] then .error .syn
      else if u32maxVal < decimalFold 0 (body.takeWhile isDig) then .error .range
      else if body.dropWhile isDig = [] then .ok (decimalFold 0 body)
      else .error .syn := by
  match body with
  | [] => rfl
  | c :: cs =>
    rw [if_neg (List.cons_ne_nil c cs)]
    exact parseUintLoop_eq (c :: cs) 0 (Nat.zero_le _)

theorem takeWhile_of_all {p : Char → Bool} {l : List Char} (h : l.all p = true) :
    l.takeWhile p = l := by
  induction l with
  | nil => rfl
  | cons c cs ih =>
    simp only [List.all_cons, Bool.and_eq_true] at h
    rw [List.takeWhile_cons_of_pos h.1, ih h.2]

theorem dropWhile_of_all {p : Char → Bool} {l : List Char} (h : l.all p = true) :
    l.dropWhile p = [] := by
  induction l with
  | nil => rfl
  | cons c cs ih =>
    simp only [List.all_cons, Bool.and_eq_true] at h
    rw [List.dropWhile_cons_of_pos h.1]
    exact ih h.2

theorem dropWhile_ne_nil_of_not_all {p : Char → Bool} {l : List Char}
    (h : ¬ l.all p = true) : l.dropWhile p ≠ [] := by
  induction l with
  | nil => exact absurd rfl h
  | cons c cs ih =>
    by_cases hc : p c = true
    · rw [List.dropWhile_cons_of_pos hc]
      apply ih
      intro hcs
      exact h (by simp only [List.all_cons, Bool.and_eq_true]; exact ⟨hc, hcs⟩)
    · rw [List.dropWhile_cons_of_neg hc]
      exact List.cons_ne_nil c cs

theorem takeWhile_of_dropWhile_nil {p : Char → Bool} {l : List Char}
    (h : l.dropWhile p = []) : l.takeWhile p = l := by
  have hall := List.takeWhile_append_dropWhile (p := p) (l := l)
  rw [h, List.append_nil] at hall
  exact hall

/-- Branch-level description of `goParseInt32`, phrased through the leading
digit run of the sign-stripped input: an overflowing digit run clamps to the
signed 32-bit boundary with `ErrRange`; an empty body or leftover non-digit
input is a syntax error with value 0; an in-range full parse applies the
signed cutoff checks of `ParseInt`. -/
def parseSpec (s : List Char) : Int × Option NumErr :=
  match s with
  | [] => (0, some .syn)
  | c :: rest =>
    let body := signBody (c :: rest)
    let f := decimalFold 0 (body.takeWhile isDig)
    if u32maxVal < f then
      if c = '-' then (-(int32cutoff : Int), some .range)
      else ((int32cutoff : Int) - 1, some .range)
    else if body = [] ∨ body.dropWhile isDig ≠ [] then (0, some .syn)
    else if c ≠ '-' ∧ int32cutoff ≤ f then ((int32cutoff : Int) - 1, some .range)
    else if c = '-' ∧ int32cutoff < f then (-(int32cutoff : Int), some .range)
    else (if c = '-' then -(f : Int) else (f : Int), none)

theorem goParseInt32_eq (s : List Char) : goParseInt32 s = parseSpec s := by
  have hmax : u32maxVal = 4294967295 := by norm_num [u32maxVal]
  have hcut : int32cutoff = 2147483648 := by norm_num [int32cutoff]
  match s with
  | [] => rfl
  | c :: rest =>
    simp only [goParseInt32, parseSpec, signBody]
    set body := if c = '+' ∨ c = '-' then rest else c :: rest with hbody
    rw [goParseUint32_eq]
    by_cases hb : body = []
    · rw [if_pos hb, hb]
      simp only [puVal, puErr, List.takeWhile_nil, decimalFold_nil]
      rw [if_neg (by omega : ¬ u32maxVal < 0)]
      simp
    · rw [if_neg hb]
      by_cases hov : u32maxVal < decimalFold 0 (body.takeWhile isDig)
      · rw [if_pos hov, if_pos hov]
        simp only [puVal, puErr]
        rw [if_neg (by decide : ¬ (some NumErr.range = some NumErr.syn))]
        by_cases hneg : c = '-'
        · rw [if_neg (fun h => h.1 hneg)]
          rw [if_pos (⟨hneg, by omega⟩ : c = '-' ∧ int32cutoff < u32maxVal)]
          simp [hneg]
        · rw [if_pos (⟨hneg, by omega⟩ : c ≠ '-' ∧ int32cutoff ≤ u32maxVal)]
          simp [hneg]
      · rw [if_neg hov, if_neg hov]
        by_cases hdw : body.dropWhile isDig = []
        · rw [if_pos hdw]
          simp only [puVal, puErr]
          rw [if_neg (by decide : ¬ ((none : Option NumErr) = some NumErr.syn))]
          rw [if_neg (by simp [hb, hdw] : ¬ (body = [] ∨ body.dropWhile isDig ≠ []))]
          rw [takeWhile_of_dropWhile_nil hdw]
        · rw [if_neg hdw]
          simp only [puVal, puErr]
          rw [if_pos (Or.inr hdw)]
          simp

/-! ## From the specification-side parse to the derived intent -/

theorem str_ne_empty_of_data_cons {s : String} {c : Char} {rest : List Char}
    (h : s.data = c :: rest) : s ≠ "" := by
  intro he
  rw [he] at h
  have hnil : ("" : String).data = [] := rfl
  rw [hnil] at h
  exact List.noConfusion h

theorem str_empty_of_data_nil {s : String} (h : s.data = []) : s = "" := by
  cases s with
  | mk d =>
    have h2 : d = [] := h
    subst h2
    rfl

theorem deriveIntent_eq_parseSpec (s : String) (hs : s ≠ "") :
    deriveIntent s =
      if (parseSpec s.data).1 ≠ 0 then .articleRequest (parseSpec s.data).1
      else .digest := by
  simp only [deriveIntent, deriveArticleId, if_pos hs, goParseInt32_eq]

theorem specParsedInt_some {s : List Char} {n : Int} (h : specParsedInt s = some n) :
    ∃ c rest, s = c :: rest ∧ signBody (c :: rest) ≠ [] ∧
      (signBody (c :: rest)).all isDig = true ∧
      n = (if c = '-' then -(decimalFold 0 (signBody (c :: rest)) : Int)
           else (decimalFold 0 (signBody (c :: rest)) : Int)) := by
  match s with
  | [] => exact absurd h (by simp [specParsedInt])
  | c :: rest =>
    refine ⟨c, rest, rfl, ?_⟩
    simp only [specParsedInt] at h
    by_cases hcond : signBody (c :: rest) ≠ [] ∧ (signBody (c :: rest)).all isDig = true
    · rw [if_pos hcond] at h
      exact ⟨hcond.1, hcond.2, (Option.some.inj h).symm⟩
    · rw [if_neg hcond] at h
      exact absurd h (by simp)

theorem deriveIntent_of_inRange (s : String) (n : Int)
    (h : specParsedInt s.data = some n) (hnz : n ≠ 0)
    (hlo : -(2 ^ 31) ≤ n) (hhi : n < 2 ^ 31) :
    deriveIntent s = .articleRequest n := by
  have hmax : u32maxVal = 4294967295 := by norm_num [u32maxVal]
  have hcut : int32cutoff = 2147483648 := by norm_num [int32cutoff]
  have h31 : ((2 : Int) ^ 31) = 2147483648 := by norm_num
  rw [h31] at hlo hhi
  obtain ⟨c, rest, hs, hne, hall, hn⟩ := specParsedInt_some h
  rw [deriveIntent_eq_parseSpec s (str_ne_empty_of_data_cons hs), hs]
  simp only [parseSpec]
  rw [takeWhile_of_all hall]
  have hsyn : ¬ (signBody (c :: rest) = [] ∨
      (signBody (c :: rest)).dropWhile isDig ≠ []) := by
    rw [dropWhile_of_all hall]
    simp [hne]
  by_cases hneg : c = '-'
  · rw [if_pos hneg] at hn
    have hfle : decimalFold 0 (signBody (c :: rest)) ≤ 2147483648 := by omega
    rw [if_neg (show ¬ u32maxVal < decimalFold 0 (signBody (c :: rest)) by omega)]
    rw [if_neg hsyn]
    rw [if_neg (show ¬ (c ≠ '-' ∧ int32cutoff ≤ decimalFold 0 (signBody (c :: rest)))
      from fun hq => hq.1 hneg)]
    rw [if_neg (show ¬ (c = '-' ∧
      int32cutoff < decimalFold 0 (signBody (c :: rest))) from fun hq => absurd hq.2 (by omega))]
    rw [show ((if c = '-' then -(decimalFold 0 (signBody (c :: rest)) : Int)
        else (decimalFold 0 (signBody (c :: rest)) : Int), (none : Option NumErr))).1
        = n from by rw [← hn]; simp [hneg]]
    rw [if_pos hnz]
  · rw [if_neg hneg] at hn
    have hflt : decimalFold 0 (signBody (c :: rest)) < 2147483648 := by omega
    rw [if_neg (show ¬ u32maxVal < decimalFold 0 (signBody (c :: rest)) by omega)]
    rw [if_neg hsyn]
    rw [if_neg (show ¬ (c ≠ '-' ∧
      int32cutoff ≤ decimalFold 0 (signBody (c :: rest))) from fun hq => absurd hq.2 (by omega))]
    rw [if_neg (show ¬ (c = '-' ∧ int32cutoff < decimalFold 0 (signBody (c :: rest)))
      from fun hq => hneg hq.1)]
    rw [show ((if c = '-' then -(decimalFold 0 (signBody (c :: rest)) : Int)
        else (decimalFold 0 (signBody (c :: rest)) : Int), (none : Option NumErr))).1
        = n from by rw [← hn]; simp [hneg]]
    rw [if_pos hnz]

theorem deriveIntent_of_zero (s : String) (h : specParsedInt s.data = some 0) :
    deriveIntent s = .digest := by
  have hmax : u32maxVal = 4294967295 := by norm_num [u32maxVal]
  have hcut : int32cutoff = 2147483648 := by norm_num [int32cutoff]
  obtain ⟨c, rest, hs, hne, hall, hn⟩ := specParsedInt_some h
  have hf0 : decimalFold 0 (signBody (c :: rest)) = 0 := by
    by_cases hneg : c = '-'
    · rw [if_pos hneg] at hn
      omega
    · rw [if_neg hneg] at hn
      omega
  rw [deriveIntent_eq_parseSpec s (str_ne_empty_of_data_cons hs), hs]
  simp only [parseSpec]
  rw [takeWhile_of_all hall, hf0]
  have hsyn : ¬ (signBody (c :: rest) = [] ∨
      (signBody (c :: rest)).dropWhile isDig ≠ []) := by
    rw [dropWhile_of_all hall]
    simp [hne]
  rw [if_neg (show ¬ u32maxVal < 0 by omega)]
  rw [if_neg hsyn]
  rw [if_neg (show ¬ (c ≠ '-' ∧ int32cutoff ≤ 0) from fun hq => absurd hq.2 (by omega))]
  rw [if_neg (show ¬ (c = '-' ∧ int32cutoff < 0) from fun hq => absurd hq.2 (by omega))]
  simp

theorem deriveIntent_of_noParse (s : String) (h : specParsedInt s.data = none)
    (hsmall : decimalFold 0 (digitRun s.data) ≤ u32maxVal) :
    deriveIntent s = .digest := by
  match hsd : s.data with
  | [] =>
    rw [str_empty_of_data_nil hsd]
    decide
  | c :: rest =>
    rw [hsd] at h hsmall
    rw [deriveIntent_eq_parseSpec s (str_ne_empty_of_data_cons hsd), hsd]
    simp only [parseSpec]
    simp only [specParsedInt] at h
    by_cases hcond : signBody (c :: rest) ≠ [] ∧ (signBody (c :: rest)).all isDig = true
    · rw [if_pos hcond] at h
      exact absurd h (by simp)
    · rw [digitRun] at hsmall
      rw [if_neg (show ¬ u32maxVal < decimalFold 0
        ((signBody (c :: rest)).takeWhile isDig) by omega)]
      have hsyn : signBody (c :: rest) = [] ∨ (signBody (c :: rest)).dropWhile isDig ≠ [] := by
        by_cases hb : signBody (c :: rest) = []
        · exact Or.inl hb
        · refine Or.inr (dropWhile_ne_nil_of_not_all ?_)
          intro hall
          exact hcond ⟨hb, hall⟩
      rw [if_pos hsyn]
      simp

theorem deriveIntent_of_overflowPos (s : String) (n : Int)
    (h : specParsedInt s.data = some n) (hge : (2 ^ 31 : Int) ≤ n) :
    deriveIntent s = .articleRequest (2 ^ 31 - 1) := by
  have hmax : u32maxVal = 4294967295 := by norm_num [u32maxVal]
  have hcut : int32cutoff = 2147483648 := by norm_num [int32cutoff]
  have h31 : ((2 : Int) ^ 31) = 2147483648 := by norm_num
  rw [h31] at hge ⊢
  obtain ⟨c, rest, hs, hne, hall, hn⟩ := specParsedInt_some h
  have hneg : ¬ c = '-' := by
    intro hc
    rw [if_pos hc] at hn
    omega
  rw [if_neg hneg] at hn
  have hfge : 2147483648 ≤ decimalFold 0 (signBody (c :: rest)) := by omega
  rw [deriveIntent_eq_parseSpec s (str_ne_empty_of_data_cons hs), hs]
  simp only [parseSpec]
  rw [takeWhile_of_all hall]
  have hsyn : ¬ (signBody (c :: rest) = [] ∨
      (signBody (c :: rest)).dropWhile isDig ≠ []) := by
    rw [dropWhile_of_all hall]
    simp [hne]
  by_cases hov : u32maxVal < decimalFold 0 (signBody (c :: rest))
  · rw [if_pos hov, if_neg hneg]
    norm_num [hcut]
  · rw [if_neg hov, if_neg hsyn]
    rw [if_pos (⟨hneg, by omega⟩ : c ≠ '-' ∧
      int32cutoff ≤ decimalFold 0 (signBody (c :: rest)))]
    norm_num [hcut]

theorem deriveIntent_of_overflowNeg (s : String) (n : Int)
    (h : specParsedInt s.data = some n) (hlt : n < -(2 ^ 31)) :
    deriveIntent s = .articleRequest (-(2 ^ 31)) := by
  have hmax : u32maxVal = 4294967295 := by norm_num [u32maxVal]
  have hcut : int32cutoff = 2147483648 := by norm_num [int32cutoff]
  have h31 : ((2 : Int) ^ 31) = 2147483648 := by norm_num
  rw [h31] at hlt ⊢
  obtain ⟨c, rest, hs, hne, hall, hn⟩ := specParsedInt_some h
  have hneg : c = '-' := by
    by_contra hc
    rw [if_neg hc] at hn
    omega
  rw [if_pos hneg] at hn
  have hfgt : 2147483648 < decimalFold 0 (signBody (c :: rest)) := by omega
  rw [deriveIntent_eq_parseSpec s (str_ne_empty_of_data_cons hs), hs]
  simp only [parseSpec]
  rw [takeWhile_of_all hall]
  have hsyn : ¬ (signBody (c :: rest) = [] ∨
      (signBody (c :: rest)).dropWhile isDig ≠ []) := by
    rw [dropWhile_of_all hall]
    simp [hne]
  by_cases hov : u32maxVal < decimalFold 0 (signBody (c :: rest))
  · rw [if_pos hov, if_pos hneg]
    norm_num [hcut]
  · rw [if_neg hov, if_neg hsyn]
    rw [if_neg (show ¬ (c ≠ '-' ∧ int32cutoff ≤ decimalFold 0 (signBody (c :: rest)))
      from fun hq => hq.1 hneg)]
    rw [if_pos (⟨hneg, by omega⟩ : c = '-' ∧
      int32cutoff < decimalFold 0 (signBody (c :: rest)))]
    norm_num [hcut]

/-! ## Claims C1 and C2: intent derived from the subject -/

/-- Claim C1 (amended). For every subject string: a full base-10 parse to a
nonzero value inside the signed 32-bit range yields `ArticleRequest(n)`; a
parse to exactly 0 yields `Digest`; a parse failure yields `Digest` provided
the leading digit run of the sign-stripped subject does not exceed
`2^32 - 1`; a parsed value `≥ 2^31` yields `ArticleRequest(2^31 - 1)` and a
parsed value `< -2^31` yields `ArticleRequest(-2^31)` (the clamped values of
Go's `ParseInt(..., 10, 32)` whose error the code discards). -/
theorem C1_intent_from_subject (s : String) :
    (∀ n : Int, specParsedInt s.data = some n → n ≠ 0 → -(2 ^ 31) ≤ n → n < 2 ^ 31 →
        deriveIntent s = .articleRequest n)
  ∧ (specParsedInt s.data = some 0 → deriveIntent s = .digest)
  ∧ (specParsedInt s.data = none → decimalFold 0 (digitRun s.data) ≤ u32maxVal →
        deriveIntent s = .digest)
  ∧ (∀ n : Int, specParsedInt s.data = some n → (2 ^ 31 : Int) ≤ n →
        deriveIntent s = .articleRequest (2 ^ 31 - 1))
  ∧ (∀ n : Int, specParsedInt s.data = some n → n < -(2 ^ 31) →
        deriveIntent s = .articleRequest (-(2 ^ 31))) :=
  ⟨fun n h h0 hlo hhi => deriveIntent_of_inRange s n h h0 hlo hhi,
    fun h => deriveIntent_of_zero s h,
    fun h hsm => deriveIntent_of_noParse s h hsm,
    fun n h hge => deriveIntent_of_overflowPos s n h hge,
    fun n h hlt => deriveIntent_of_overflowNeg s n h hlt⟩

/-- Claim C1 counterexample: the subject `"2147483648"` parses in full as
the base-10 integer 2147483648 ≠ 0, yet the derived intent is neither
`ArticleRequest(2147483648)` nor `Digest` — it is
`ArticleRequest(2147483647)`, the clamped value returned with the
discarded range error. -/
theorem C1_counterexample :
    specParsedInt ("2147483648" : String).data = some 2147483648
  ∧ deriveIntent "2147483648" = .articleRequest 2147483647
  ∧ deriveIntent "2147483648" ≠ .articleRequest 2147483648
  ∧ deriveIntent "2147483648" ≠ .digest := by
  decide

/-- Witness for C1: instantiating the amended claim at `"7"` and `"0"`. -/
theorem C1_intent_from_subject_witness :
    deriveIntent "7" = .articleRequest 7 ∧ deriveIntent "0" = .digest :=
  ⟨(C1_intent_from_subject "7").1 7 (by decide) (by decide) (by decide) (by decide),
   (C1_intent_from_subject "0").2.1 (by decide)⟩

/-- Claim C2 (amended). Subjects parsing entirely as a *positive* integer
(within the signed 32-bit range) yield `ArticleRequest(n)` — but so do
subjects parsing as a negative integer: the code only tests the parsed
value against 0, so negative subjects do *not* fall back to `Digest`. -/
theorem C2_intent_sign (s : String) :
    (∀ n : Int, specParsedInt s.data = some n → 0 < n → n < 2 ^ 31 →
        deriveIntent s = .articleRequest n)
  ∧ (∀ n : Int, specParsedInt s.data = some n → -(2 ^ 31) ≤ n → n < 0 →
        deriveIntent s = .articleRequest n) :=
  ⟨fun n h h0 hhi =>
      deriveIntent_of_inRange s n h (ne_of_gt h0) (le_trans (by norm_num) h0.le) hhi,
    fun n h hlo h0 =>
      deriveIntent_of_inRange s n h (ne_of_lt h0) hlo (lt_of_lt_of_le h0 (by norm_num))⟩

/-- Claim C2 counterexample: the subject `"-5"` is a negative integer, yet
the derived intent is `ArticleRequest(-5)`, not `Digest`. -/
theorem C2_counterexample :
    specParsedInt ("-5" : String).data = some (-5)
  ∧ deriveIntent "-5" = .articleRequest (-5)
  ∧ deriveIntent "-5" ≠ .digest := by
  decide

/-- Witness for C2: instantiating the amended claim at `"6"` and `"-8"`. -/
theorem C2_intent_sign_witness :
    deriveIntent "6" = .articleRequest 6 ∧ deriveIntent "-8" = .articleRequest (-8) :=
  ⟨(C2_intent_sign "6").1 6 (by decide) (by decide) (by decide),
   (C2_intent_sign "-8").2 (-8) (by decide) (by decide) (by decide)⟩

/-! ## Claims C3 and C4: the header-sanitation filter -/

theorem filterLoop_false (ls : List (List Char)) : filterLoop ls false = ls := by
  induction ls with
  | nil => rfl
  | cons line rest ih => simp [filterLoop, ih]

theorem filterLoop_true (ls : List (List Char)) :
    filterLoop ls true =
      (ls.takeWhile (fun l => !isBlankLine l)).filter (fun l => !dropLine l)
        ++ ls.dropWhile (fun l => !isBlankLine l) := by
  induction ls with
  | nil => rfl
  | cons line rest ih =>
    cases hb : isBlankLine line with
    | true =>
      simp [filterLoop, hb, filterLoop_false, List.takeWhile_cons, List.dropWhile_cons]
    | false =>
      cases hd : dropLine line with
      | true =>
        simp [filterLoop, hb, hd, List.takeWhile_cons, List.dropWhile_cons,
          List.filter_cons, ih]
      | false =>
        simp [filterLoop, hb, hd, List.takeWhile_cons, List.dropWhile_cons,
          List.filter_cons, ih]

/-- Claim C3: the header-sanitation filter keeps every line from the first
blank (`""` or `"\r"`) line on unchanged, and before it keeps exactly the
lines that do not start with `>From` and do not start with `From` without
an immediate colon; lines starting with `From:` are kept, lines starting
with `>From` are dropped, and lines starting with `From` followed by
anything other than a colon are dropped. -/
theorem C3_header_filter (b : List Char) :
    (filterMalformedHeaders b =
      joinLines
        (((splitLines b).takeWhile (fun l => !isBlankLine l)).filter (fun l => !dropLine l)
          ++ (splitLines b).dropWhile (fun l => !isBlankLine l)))
  ∧ (∀ t : List Char, dropLine (pfxFromColon ++ t) = false)
  ∧ (∀ t : List Char, dropLine (pfxGtFrom ++ t) = true)
  ∧ (∀ (c : Char) (t : List Char), c ≠ ':' → dropLine (pfxFrom ++ c :: t) = true) := by
  refine ⟨?_, ?_, ?_, ?_⟩
  · unfold filterMalformedHeaders
    rw [filterLoop_true]
  · intro t
    simp [dropLine, pfxFromColon, pfxGtFrom, pfxFrom, List.isPrefixOf]
  · intro t
    simp [dropLine, pfxFromColon, pfxGtFrom, pfxFrom, List.isPrefixOf]
  · intro c t hc
    have hcb : (':' == c) = false := by
      rw [beq_eq_false_iff_ne]
      exact fun h => hc h.symm
    simp [dropLine, pfxFromColon, pfxGtFrom, pfxFrom, List.isPrefixOf, hcb]

/-- Witness for C3: a scenario-D line `"From bob did something"` (prefix
`From`, next character not a colon) is dropped by the filter predicate. -/
theorem C3_header_filter_witness : dropLine (pfxFrom ++ ' ' :: "bob did something".data) = true :=
  (C3_header_filter []).2.2.2 ' ' "bob did something".data (by decide)

theorem splitLines_single (l : List Char) (h : '\n' ∉ l) : splitLines l = [l] := by
  induction l with
  | nil => rfl
  | cons c cs ih =>
    have hc : ¬ c = '\n' := by
      intro hc
      exact h (by rw [hc]; exact List.mem_cons_self _ _)
    rw [splitLines, if_neg hc, ih (fun hm => h (List.mem_cons_of_mem c hm))]

theorem splitLines_append_newline (l t : List Char) (h : '\n' ∉ l) :
    splitLines (l ++ '\n' :: t) = l :: splitLines t := by
  induction l with
  | nil => simp [splitLines]
  | cons c cs ih =>
    have hc : ¬ c = '\n' := by
      intro hc
      exact h (by rw [hc]; exact List.mem_cons_self _ _)
    rw [List.cons_append, splitLines, if_neg hc,
      ih (fun hm => h (List.mem_cons_of_mem c hm))]

theorem no_newline_mem_splitLines (b : List Char) :
    ∀ l ∈ splitLines b, '\n' ∉ l := by
  induction b with
  | nil =>
    intro l hl
    simp only [splitLines, List.mem_singleton] at hl
    subst hl
    simp
  | cons c cs ih =>
    intro l hl
    by_cases hc : c = '\n'
    · rw [splitLines, if_pos hc] at hl
      rcases List.mem_cons.mp hl with h1 | h2
      · subst h1; simp
      · exact ih l h2
    · rw [splitLines, if_neg hc] at hl
      cases hsp : splitLines cs with
      | nil =>
        rw [hsp] at hl
        simp only [List.mem_singleton] at hl
        subst hl
        simp [hc, Ne.symm hc]
      | cons l0 ls0 =>
        rw [hsp] at hl
        rcases List.mem_cons.mp hl with h1 | h2
        · subst h1
          intro hm
          rcases List.mem_cons.mp hm with h3 | h4
          · exact hc h3.symm
          · exact ih l0 (hsp ▸ List.mem_cons_self _ _) h4
        · exact ih l (hsp ▸ List.mem_cons_of_mem l0 h2)

theorem splitLines_joinLines (ls : List (List Char)) (h1 : ls ≠ [])
    (h2 : ∀ l ∈ ls, '\n' ∉ l) : splitLines (joinLines ls) = ls := by
  induction ls with
  | nil => exact absurd rfl h1
  | cons l rest ih =>
    cases rest with
    | nil => exact splitLines_single l (h2 l (List.mem_cons_self _ _))
    | cons l2 rest2 =>
      rw [show joinLines (l :: l2 :: rest2) = l ++ '\n' :: joinLines (l2 :: rest2) from rfl]
      rw [splitLines_append_newline l _ (h2 l (List.mem_cons_self _ _))]
      rw [ih (List.cons_ne_nil _ _) (fun x hx => h2 x (List.mem_cons_of_mem l hx))]

theorem mem_of_mem_filterLoop {l : List Char} :
    ∀ (ls : List (List Char)) (hd : Bool), l ∈ filterLoop ls hd → l ∈ ls := by
  intro ls
  induction ls with
  | nil =>
    intro hd hl
    exact absurd hl (List.not_mem_nil l)
  | cons line rest ih =>
    intro hd hl
    simp only [filterLoop] at hl
    by_cases hcond : ((if hd && isBlankLine line then false else hd) && dropLine line) = true
    · rw [if_pos hcond] at hl
      exact List.mem_cons_of_mem line (ih _ hl)
    · rw [if_neg hcond] at hl
      rcases List.mem_cons.mp hl with h1 | h2
      · exact List.mem_cons.mpr (Or.inl h1)
      · exact List.mem_cons_of_mem line (ih _ h2)

theorem filterLoop_true_idem (ls : List (List Char)) :
    filterLoop (filterLoop ls true) true = filterLoop ls true := by
  induction ls with
  | nil => rfl
  | cons line rest ih =>
    cases hb : isBlankLine line with
    | true => simp [filterLoop, hb, filterLoop_false]
    | false =>
      cases hd : dropLine line with
      | true => simp [filterLoop, hb, hd, ih]
      | false => simp [filterLoop, hb, hd, ih]

/-- Claim C4: the header-sanitation filter is idempotent — applying
`filterMalformedHeaders` twice yields the same result as applying it once. -/
theorem C4_filter_idempotent (b : List Char) :
    filterMalformedHeaders (filterMalformedHeaders b) = filterMalformedHeaders b := by
  unfold filterMalformedHeaders
  by_cases hL : filterLoop (splitLines b) true = []
  · rw [hL]
    rfl
  · rw [splitLines_joinLines _ hL
      (fun l hl => no_newline_mem_splitLines b l (mem_of_mem_filterLoop _ _ hl))]
    rw [filterLoop_true_idem]

/-! ## Claim C5: reply routing -/

/-- Claim C5: on both the digest path and the article path, the reply
addressee equals the inbound sender when the sender is not `"gateway"`,
and is `"gateway"` when the sender is `"gateway"`; the two sites compute
the same function of the sender. -/
theorem C5_reply_routing (S : String) :
    (S ≠ "gateway" → respReceiverMain S = S ∧ respReceiverArticle S = S)
  ∧ (S = "gateway" → respReceiverMain S = "gateway" ∧ respReceiverArticle S = "gateway")
  ∧ respReceiverMain S = respReceiverArticle S := by
  refine ⟨fun h => ?_, fun h => ?_, rfl⟩
  · constructor
    · simp [respReceiverMain, h]
    · simp [respReceiverArticle, h]
  · constructor
    · simp [respReceiverMain, h]
    · simp [respReceiverArticle, h]

/-- Witness for C5 at the senders `"alice"` and `"gateway"`. -/
theorem C5_reply_routing_witness :
    respReceiverMain "alice" = "alice" ∧ respReceiverArticle "gateway" = "gateway" :=
  ⟨((C5_reply_routing "alice").1 (by decide)).1,
   ((C5_reply_routing "gateway").2.1 rfl).2⟩

/-! ## Claim C6: the digest reply -/

/-- One `"[id] title\n\n"` segment per headline, in cache order. -/
def headlineSegments : List Headline → String
  | [] => ""
  | h :: t => ("[" ++ toString h.ID ++ "] " ++ h.Title ++ "\n\n") ++ headlineSegments t

theorem string_empty_append (s : String) : "" ++ s = s := rfl

theorem foldl_headlineSegments (hs : List Headline) : ∀ b : String,
    hs.foldl (fun b h => b ++ "[" ++ toString h.ID ++ "] " ++ h.Title ++ "\n\n") b
      = b ++ headlineSegments hs := by
  induction hs with
  | nil =>
    intro b
    simp [headlineSegments]
  | cons h t ih =>
    intro b
    rw [List.foldl_cons, ih, headlineSegments]
    simp [String.append_assoc]

/-- Claim C6: the digest reply body is the fixed header block, one
`"[id] title\n\n"` segment per headline in the cache's order, then the
fixed footer block; the subject is the fixed digest subject and the From
address is the polling identity's name with `@ubikom.cc` appended. -/
theorem C6_digest_reply (keyName toAddr : String) (hs : List Headline) :
    (digestReplyEmail keyName toAddr hs).body = header ++ headlineSegments hs ++ footer
  ∧ (digestReplyEmail keyName toAddr hs).subject = headlinesSubject
  ∧ (digestReplyEmail keyName toAddr hs).fromAddr = keyName ++ "@ubikom.cc"
  ∧ (digestReplyEmail keyName toAddr hs).toAddrs = [toAddr] := by
  refine ⟨?_, rfl, rfl, rfl⟩
  show digestBody hs = header ++ headlineSegments hs ++ footer
  simp only [digestBody]
  rw [foldl_headlineSegments, string_empty_append]

/-! ## Claim C7: the article reply -/

/-- Claim C7: when the subject derives a nonzero article id and the cache
lookup succeeds, the reply is composed with subject the article's headline
and body its full text, from the fixed identity
`"Ubikom War Info" <war-info@ubikom.cc>` — a constant independent of the
polling identity `keyName`, which is used only to sign and send. -/
theorem C7_article_reply (keyName sender toAddr subj : String) (cache : Cache)
    (a : Article) (hnz : deriveArticleId subj ≠ 0)
    (hhit : cache.getArticle (deriveArticleId subj) = some a) :
    handleMessage (.ok ⟨.ok [toAddr], .ok subj⟩) keyName sender cache
      = .articleReply (articleReplyEmail a.text a.headline toAddr) keyName
          (respReceiverArticle sender)
  ∧ (articleReplyEmail a.text a.headline toAddr).subject = a.headline
  ∧ (articleReplyEmail a.text a.headline toAddr).body = a.text
  ∧ (articleReplyEmail a.text a.headline toAddr).fromAddr = "war-info@ubikom.cc"
  ∧ (articleReplyEmail a.text a.headline toAddr).fromName = "Ubikom War Info" := by
  refine ⟨?_, rfl, rfl, rfl, rfl⟩
  simp only [handleMessage]
  rw [if_pos hnz, hhit]

/-- Witness for C7: Scenario B — inbound subject `"2"`, cache holding
article 2 with headline `"Ceasefire talks"` and text `"Full article text"`. -/
theorem C7_article_reply_witness :
    handleMessage (.ok ⟨.ok ["alice"], .ok "2"⟩) "war-bot" "alice"
        ⟨[], fun i => if i = 2 then some ⟨"Ceasefire talks", "Full article text"⟩ else none⟩
      = .articleReply (articleReplyEmail "Full article text" "Ceasefire talks" "alice")
          "war-bot" (respReceiverArticle "alice") :=
  (C7_article_reply "war-bot" "alice" "alice" "2"
    ⟨[], fun i => if i = 2 then some ⟨"Ceasefire talks", "Full article text"⟩ else none⟩
    ⟨"Ceasefire talks", "Full article text"⟩ (by decide) (by decide)).1

/-! ## Claim C8: Receive error handling -/

/-- Claim C8: a `NotFound` gRPC status from `Receive` terminates the
per-identity drain loop normally (no processing); any other `Receive`
failure — another status code or a non-status error — is fatal to the
process; a successful receive hands the message to the pipeline. -/
theorem C8_receive_dispatch :
    handleReceive (.errStatus codeNotFound) = .breakDrain
  ∧ (∀ c : Nat, c ≠ codeNotFound → handleReceive (.errStatus c) = .fatalExit)
  ∧ handleReceive .errNonStatus = .fatalExit
  ∧ (∀ m : InMsg, handleReceive (.ok m) = .processMsg m) := by
  refine ⟨by simp [handleReceive], fun c hc => by simp [handleReceive, hc], rfl,
    fun m => rfl⟩

/-- Witness for C8 at the non-NotFound status code 13 (`Internal`). -/
theorem C8_receive_dispatch_witness :
    handleReceive (.errStatus 13) = .fatalExit :=
  C8_receive_dispatch.2.1 13 (by decide)

/-! ## Claim C9: parse failures skip the message -/

/-- Claim C9: a `message.Read` failure, a From-extraction failure, a From
address list without exactly one entry, or a subject-read failure each
make the pipeline skip the message (no reply is composed, the loop
continues; the code in this region has no fatal exit). -/
theorem C9_parse_failures_skip (keyName sender : String) (cache : Cache) :
    (∀ e : Unit, handleMessage (.error e) keyName sender cache = .skip)
  ∧ (∀ d : Doc, d.fromAddrsRes = .error () →
        handleMessage (.ok d) keyName sender cache = .skip)
  ∧ (∀ (d : Doc) (al : List String), d.fromAddrsRes = .ok al → al.length ≠ 1 →
        handleMessage (.ok d) keyName sender cache = .skip)
  ∧ (∀ (d : Doc) (a : String), d.fromAddrsRes = .ok [a] → d.subjRes = .error () →
        handleMessage (.ok d) keyName sender cache = .skip) := by
  refine ⟨fun e => rfl, ?_, ?_, ?_⟩
  · intro d hd
    simp [handleMessage, hd]
  · intro d al hd hlen
    simp only [handleMessage, hd]
    rcases al with _ | ⟨a, _ | ⟨b, t⟩⟩
    · rfl
    · exact absurd rfl hlen
    · rfl
  · intro d a hd hsubj
    simp [handleMessage, hd, hsubj]

/-- Witness for C9: a failed document read is skipped. -/
theorem C9_parse_failures_skip_witness :
    handleMessage (.error ()) "war-bot" "alice" ⟨[], fun _ => none⟩ = .skip :=
  (C9_parse_failures_skip "war-bot" "alice" ⟨[], fun _ => none⟩).1 ()

/-! ## Claim C10: outbound compose/send failures are never fatal -/

/-- Claim C10: `sendArticle` returns exactly the composition error — in
particular it returns `nil` whenever composition succeeded, even if the
underlying send failed, in which case the send error is only logged; and
on the digest path of `main`, composition and send errors are only logged,
the loop always continuing. -/
theorem C10_send_errors_nonfatal (createErr sendErr : Option String) :
    (sendArticleModel createErr sendErr).ret = createErr
  ∧ ((sendArticleModel createErr sendErr).ret = none ↔ createErr = none)
  ∧ (createErr = none → (sendArticleModel createErr sendErr).sendAttempted = true
        ∧ (sendArticleModel createErr sendErr).loggedSendErr = sendErr)
  ∧ digestSendTail createErr sendErr ≠ .fatalExit := by
  refine ⟨?_, ?_, ?_, ?_⟩
  · cases createErr <;> rfl
  · cases createErr <;> simp [sendArticleModel]
  · intro h
    subst h
    exact ⟨rfl, rfl⟩
  · simp [digestSendTail]

/-- Witness for C10: with successful composition and a failing send, the
send was attempted, its error logged, and `sendArticle` returns `nil`. -/
theorem C10_send_errors_nonfatal_witness :
    (sendArticleModel none (some "send failed")).sendAttempted = true
  ∧ (sendArticleModel none (some "send failed")).loggedSendErr = some "send failed" :=
  (C10_send_errors_nonfatal none (some "send failed")).2.2.1 rfl

end UbikomBot
